import Mathlib

/-!
Shallow embedding of the Activity Telemetry & Live Notification Engine of
`ImRunningLiveServerAndWeb` (src/server.js, src/db/utils.js, src/db/models.js).

Strings are modelled as `List Char`, timestamps as natural-number milliseconds,
JSON numbers carried by requests as `ℚ` (absent fields as `none`), and the
real-valued geometry (haversine distance, pace) over `ℝ`.  The Mongo store is
modelled as in-memory lists of records holding exactly the fields the handlers
write, persisted in insertion order; `findOne` with a sort is modelled as a
deterministic scan (later insertions win timestamp ties).
-/

namespace ImRunning

/-- `[a-zA-Z0-9]` character class of the id patterns in db/utils.js. -/
def isAlnumChar (c : Char) : Bool :=
  ('a' ≤ c && c ≤ 'z') || ('A' ≤ c && c ≤ 'Z') || ('0' ≤ c && c ≤ '9')

/-- Matching of the anchored regex `^<pre>[a-zA-Z0-9]{n}$` against `id`. -/
def matchesPattern (pre : List Char) (n : Nat) (id : List Char) : Bool :=
  (id.take pre.length == pre) &&
  ((id.drop pre.length).length == n) &&
  (id.drop pre.length).all isAlnumChar

/-- The `type` argument of `validateId` in db/utils.js
(`'any'` is the default used by every handler in server.js). -/
inductive IdType where
  | user | event | activity | share | any
  deriving DecidableEq

/-- `validateId` from db/utils.js: per-kind anchored patterns
`usr_`/`evt_`/`act_` + 8 alphanumerics, `sh_` + 16 alphanumerics;
`'any'` accepts an id matching any of the four patterns. -/
def validateId (id : List Char) (type : IdType) : Bool :=
  match type with
  | .user => matchesPattern "usr_".toList 8 id
  | .event => matchesPattern "evt_".toList 8 id
  | .activity => matchesPattern "act_".toList 8 id
  | .share => matchesPattern "sh_".toList 16 id
  | .any =>
      matchesPattern "usr_".toList 8 id ||
      matchesPattern "evt_".toList 8 id ||
      matchesPattern "act_".toList 8 id ||
      matchesPattern "sh_".toList 16 id

end ImRunning

namespace ImRunning

theorem underscore_not_alnum : isAlnumChar '_' = false := by decide

/-- An id that matches one of the prefixed patterns contains the underscore
of its prefix, hence is not made of alphanumeric characters only. -/
theorem matchesPattern_no_alnum (pre : List Char) (n : Nat) (id : List Char)
    (hpre : '_' ∈ pre) (h : matchesPattern pre n id = true) :
    ¬ (id.all isAlnumChar = true) := by
  intro hall
  have h1 : id.take pre.length == pre := by
    simp only [matchesPattern, Bool.and_eq_true] at h
    exact h.1.1
  have h2 : id.take pre.length = pre := by
    exact eq_of_beq h1
  have hmem : '_' ∈ id := List.take_subset _ _ (h2 ▸ hpre)
  have := List.all_eq_true.mp hall '_' hmem
  simp [isAlnumChar] at this

end ImRunning

namespace ImRunning

/-- JavaScript truthiness test `!x` applied to an optional numeric request
field: `undefined`/`null` and `0` are falsy (server.js `if (!lat || !lng)`,
`startLocation.lat && startLocation.lng`). -/
def jsFalsy (o : Option ℚ) : Bool :=
  match o with
  | none => true
  | some x => x == 0

/-- A stored `LocationPing` document, holding the fields the server.js
handlers write (`meta`, `ts`, the coordinates of `loc`, and the `distance`
field that the location handler adds; pings saved by the start handler carry
no `distance`, modelled as `none`). -/
structure Ping where
  activityId : List Char
  runnerId : List Char
  ts : ℕ
  lat : ℚ
  lng : ℚ
  distance : Option ℝ

/-- A stored `Cheer` document (fields used by the message handlers). -/
structure CheerRec where
  id : List Char
  activityId : List Char
  fromName : List Char
  message : List Char
  createdAt : ℕ
  deliveredAt : Option ℕ
  deriving DecidableEq

/-- `status` enum of the activity schema in db/models.js. -/
inductive ActivityStatus where
  | planned | active | finished | cancelled
  deriving DecidableEq

/-- A stored `Activity` document (fields used by the handlers). -/
structure ActivityRec where
  id : List Char
  runnerId : List Char
  eventId : List Char
  status : ActivityStatus
  startedAt : Option ℕ
  createdAt : ℕ
  updatedAt : ℕ
  deriving DecidableEq

/-- A stored `User` document (fields relevant to provisioning). -/
structure UserRec where
  id : List Char
  email : List Char
  displayName : List Char
  deriving DecidableEq

/-- A stored `Event` document (fields used by the start handler). -/
structure EventRec where
  id : List Char
  name : List Char
  type : List Char
  date : ℕ
  deriving DecidableEq

/-- The persistent store, one list per collection, in insertion order. -/
structure ServerState where
  users : List UserRec
  events : List EventRec
  activities : List ActivityRec
  pings : List Ping
  cheers : List CheerRec

/-- `findOneAndUpdate`-style helper: rewrite the first element satisfying `p`
with `f`, leave the rest unchanged. -/
def updateFirst (p : α → Bool) (f : α → α) : List α → List α
  | [] => []
  | x :: xs => if p x then f x :: xs else x :: updateFirst p f xs

/-- `Math.atan2 y x` of JavaScript for finite arguments (angle of the point
`(x, y)`, in `(-π, π]`). -/
noncomputable def atan2 (y x : ℝ) : ℝ :=
  if 0 < x then Real.arctan (y / x)
  else if x < 0 ∧ 0 ≤ y then Real.arctan (y / x) + Real.pi
  else if x < 0 ∧ y < 0 then Real.arctan (y / x) - Real.pi
  else if x = 0 ∧ 0 < y then Real.pi / 2
  else if x = 0 ∧ y < 0 then -(Real.pi / 2)
  else 0

/-- `calculateDistance` from db/utils.js: haversine distance in meters
between two latitude/longitude pairs (degrees), on a sphere of radius
`R = 6371000` m. -/
noncomputable def calculateDistance (lat1 lon1 lat2 lon2 : ℝ) : ℝ :=
  let R : ℝ := 6371000
  let dLat := (lat2 - lat1) * Real.pi / 180
  let dLon := (lon2 - lon1) * Real.pi / 180
  let a :=
    Real.sin (dLat / 2) * Real.sin (dLat / 2) +
      Real.cos (lat1 * Real.pi / 180) * Real.cos (lat2 * Real.pi / 180) *
        Real.sin (dLon / 2) * Real.sin (dLon / 2)
  let c := 2 * atan2 (Real.sqrt a) (Real.sqrt (1 - a))
  R * c

/-- `calculatePace` from db/utils.js: `0` when the distance argument is not
positive, otherwise seconds per kilometer of the given distance argument
(which the callers pass in meters). -/
noncomputable def calculatePace (timeSeconds distanceMeters : ℝ) : ℝ :=
  if distanceMeters ≤ 0 then 0
  else timeSeconds / (distanceMeters / 1000)

theorem atan2_nonneg (y x : ℝ) (hy : 0 ≤ y) : 0 ≤ atan2 y x := by
  unfold atan2
  split
  · rename_i hx
    have h := Real.arctan_strictMono.monotone (div_nonneg hy hx.le)
    rwa [Real.arctan_zero] at h
  · split
    · have h1 : -(Real.pi / 2) < Real.arctan (y / x) := Real.neg_pi_div_two_lt_arctan _
      have h2 : 0 < Real.pi := Real.pi_pos
      linarith
    · split
      · rename_i h
        exact absurd h.2 (not_lt.mpr hy)
      · split
        · have h2 : 0 < Real.pi := Real.pi_pos
          linarith
        · split
          · rename_i h
            exact absurd h.2 (not_lt.mpr hy)
          · exact le_refl 0

/-- The haversine distance of db/utils.js is never negative. -/
theorem calculateDistance_nonneg (lat1 lon1 lat2 lon2 : ℝ) :
    0 ≤ calculateDistance lat1 lon1 lat2 lon2 := by
  unfold calculateDistance
  simp only []
  exact mul_nonneg (by norm_num)
    (mul_nonneg (by norm_num) (atan2_nonneg _ _ (Real.sqrt_nonneg _)))

/-- The haversine distance from a point to itself is zero. -/
theorem calculateDistance_self (lat lon : ℝ) :
    calculateDistance lat lon lat lon = 0 := by
  unfold calculateDistance
  simp [sub_self, Real.sqrt_one, atan2, Real.arctan_zero]

end ImRunning

namespace ImRunning

/-- Request data of `POST /api/runner/:runnerId/activity/:activityId/location`
(the optional biometric fields of the body are carried through to the stored
ping unchanged and are observed by no property, so they are elided). -/
structure LocationRequest where
  runnerId : List Char
  activityId : List Char
  lat : Option ℚ
  lng : Option ℚ

def invalidIdMsg : List Char := "Invalid ID format".toList

def latLngRequiredMsg : List Char := "Latitude and longitude are required".toList

/-- Outcome of the location handler: HTTP 400 with its error string, or the
success payload (cumulative distance, ping timestamp) together with the pace
value the handler computes for its race-stats log (`none` when the activity
is absent or not started). -/
inductive LocationResult where
  | badRequest : List Char → LocationResult
  | ok : ℝ → ℕ → Option ℝ → LocationResult

/-- `LocationPing.findOne({meta...}, {}, {sort: {ts: -1}})` of server.js:
the stored ping with the greatest `ts` among those of the activity/runner
pair, the most recently inserted one winning timestamp ties. -/
def findLatestPing (pings : List Ping) (activityId runnerId : List Char) :
    Option Ping :=
  (pings.filter fun p =>
      p.activityId == activityId && p.runnerId == runnerId).foldl
    (fun acc p =>
      match acc with
      | none => some p
      | some q => if q.ts ≤ p.ts then some p else some q)
    none

/-- The location handler of server.js (lines 692-788): id validation, the
truthiness check on `lat`/`lng`, cumulative distance from the previous ping
(`(previousLocation.distance || 0) + calculateDistance(...)`), persistence of
the new ping, and the race-stats pace computation
`calculatePace(elapsedTime, cumulativeDistance * 1000)` with
`elapsedTime = Math.floor((now - startedAt) / 1000)`. -/
noncomputable def postLocation (st : ServerState) (now : ℕ)
    (req : LocationRequest) : ServerState × LocationResult :=
  if !validateId req.runnerId .any || !validateId req.activityId .any then
    (st, .badRequest invalidIdMsg)
  else if jsFalsy req.lat || jsFalsy req.lng then
    (st, .badRequest latLngRequiredMsg)
  else
    let lat := req.lat.getD 0
    let lng := req.lng.getD 0
    let previousLocation := findLatestPing st.pings req.activityId req.runnerId
    let cumulativeDistance : ℝ :=
      match previousLocation with
      | none => 0
      | some p =>
          p.distance.getD 0 +
            calculateDistance (p.lat : ℝ) (p.lng : ℝ) (lat : ℝ) (lng : ℝ)
    let location : Ping :=
      { activityId := req.activityId, runnerId := req.runnerId, ts := now,
        lat := lat, lng := lng, distance := some cumulativeDistance }
    let currentPace : Option ℝ :=
      match st.activities.find? fun a => a.id == req.activityId with
      | some activity =>
          match activity.startedAt with
          | some s =>
              some (calculatePace ((((now : ℤ) - (s : ℤ)).fdiv 1000 : ℤ) : ℝ)
                (cumulativeDistance * 1000))
          | none => none
      | none => none
    ({ st with pings := st.pings ++ [location] },
      .ok cumulativeDistance now currentPace)

end ImRunning

namespace ImRunning

/-- C8: a location request with a missing latitude or longitude leaves the
store untouched and yields an HTTP 400 error. -/
theorem ingest_missing_coordinate_rejected (st : ServerState) (now : ℕ)
    (req : LocationRequest) (h : req.lat = none ∨ req.lng = none) :
    (postLocation st now req).1 = st ∧
      ∃ msg, (postLocation st now req).2 = .badRequest msg := by
  unfold postLocation
  by_cases hid : (!validateId req.runnerId .any || !validateId req.activityId .any) = true
  · simp [hid]
  · have hfal : (jsFalsy req.lat || jsFalsy req.lng) = true := by
      rcases h with h | h <;> simp [h, jsFalsy]
    simp [hid, hfal]

end ImRunning

namespace ImRunning

/-- C10: a location request carrying `0` as latitude or longitude is rejected
by the truthiness check exactly like a request missing the coordinate: same
400 error, nothing persisted. -/
theorem ingest_zero_coordinate_rejected (st : ServerState) (now : ℕ)
    (req : LocationRequest) (h : req.lat = some 0 ∨ req.lng = some 0)
    (hr : validateId req.runnerId .any = true)
    (ha : validateId req.activityId .any = true) :
    postLocation st now req = (st, .badRequest latLngRequiredMsg) ∧
      postLocation st now req =
        postLocation st now { req with lat := none, lng := none } := by
  have hfal : (jsFalsy req.lat || jsFalsy req.lng) = true := by
    rcases h with h | h <;> simp [h, jsFalsy]
  have h1 : postLocation st now req = (st, .badRequest latLngRequiredMsg) := by
    unfold postLocation
    simp [hr, ha, hfal]
  have h2 : postLocation st now { req with lat := none, lng := none } =
      (st, .badRequest latLngRequiredMsg) := by
    unfold postLocation
    simp [hr, ha, jsFalsy]
  exact ⟨h1, h1.trans h2.symm⟩

/-- The accepted path of the location handler, written out: with valid ids
and truthy coordinates, the handler appends one ping carrying the new
cumulative distance and reports that distance, the ping timestamp and the
logged pace. -/
theorem postLocation_accepted (st : ServerState) (now : ℕ)
    (req : LocationRequest) (lat lng : ℚ)
    (hr : validateId req.runnerId .any = true)
    (ha : validateId req.activityId .any = true)
    (hlat : req.lat = some lat) (hlng : req.lng = some lng)
    (hlat0 : lat ≠ 0) (hlng0 : lng ≠ 0) :
    postLocation st now req =
      (let cum : ℝ :=
        match findLatestPing st.pings req.activityId req.runnerId with
        | none => 0
        | some p =>
            p.distance.getD 0 +
              calculateDistance (p.lat : ℝ) (p.lng : ℝ) (lat : ℝ) (lng : ℝ)
      ({ st with pings := st.pings ++
          [{ activityId := req.activityId, runnerId := req.runnerId,
             ts := now, lat := lat, lng := lng, distance := some cum }] },
        .ok cum now
          (match st.activities.find? fun a => a.id == req.activityId with
           | some activity =>
               match activity.startedAt with
               | some s =>
                   some (calculatePace
                     ((((now : ℤ) - (s : ℤ)).fdiv 1000 : ℤ) : ℝ)
                     (cum * 1000))
               | none => none
           | none => none))) := by
  unfold postLocation
  have hfal : (jsFalsy req.lat || jsFalsy req.lng) = false := by
    simp [hlat, hlng, jsFalsy, hlat0, hlng0]
  simp [hr, ha, hfal, hlat, hlng, jsFalsy, hlat0, hlng0]

end ImRunning

namespace ImRunning

def ridA : List Char := "usr_aaaaaaaa".toList

def aidA : List Char := "act_aaaaaaaa".toList

def eidA : List Char := "evt_aaaaaaaa".toList

/-- A stored ping carrying cumulative distance 1000 meters. -/
noncomputable def ping6 : Ping :=
  { activityId := aidA, runnerId := ridA, ts := 0, lat := 1, lng := 1,
    distance := some 1000 }

def activity6 : ActivityRec :=
  { id := aidA, runnerId := ridA, eventId := eidA, status := .active,
    startedAt := some 0, createdAt := 0, updatedAt := 0 }

noncomputable def st6 : ServerState :=
  { users := [], events := [], activities := [activity6], pings := [ping6],
    cheers := [] }

def req6 : LocationRequest :=
  { runnerId := ridA, activityId := aidA, lat := some 1, lng := some 1 }

/-- C6 (code bug): for an activity started at time 0, a sample ingested at
100000 ms on top of 1000 m of cumulative distance makes the handler log pace
`1/10` s/km — `calculatePace(elapsed, cumulativeDistance * 1000)` treats the
meters value `cumulativeDistance` as kilometers — while elapsed seconds
divided by the cumulative distance in kilometers is `100`. -/
theorem pace_units_bug :
    (postLocation st6 100000 req6).2 = .ok 1000 100000 (some (1 / 10)) ∧
      (100 : ℝ) / ((1000 : ℝ) / 1000) = 100 ∧ (1 / 10 : ℝ) ≠ 100 := by
  have hacc := postLocation_accepted st6 100000 req6 1 1 (by decide) (by decide)
    rfl rfl (by norm_num) (by norm_num)
  have hfind : findLatestPing st6.pings req6.activityId req6.runnerId =
      some ping6 := by rfl
  have hact : (st6.activities.find? fun a => a.id == req6.activityId) =
      some activity6 := by rfl
  refine ⟨?_, by norm_num, by norm_num⟩
  rw [hacc]
  simp only [hfind, hact, ping6, activity6]
  have hd : calculateDistance ((1 : ℚ) : ℝ) ((1 : ℚ) : ℝ) ((1 : ℚ) : ℝ)
      ((1 : ℚ) : ℝ) = 0 := calculateDistance_self _ _
  have hfd : (((100000 : ℤ) - (0 : ℤ)).fdiv 1000 : ℤ) = 100 := by decide
  simp only [Option.getD_some, hd, hfd]
  norm_num [calculatePace, show Int.fdiv 100000 1000 = 100 from by decide]

end ImRunning

namespace ImRunning

/-- Run the location handler over a list of `(timestamp, lat, lng)` samples
for one runner/activity pair, threading the store. -/
noncomputable def ingestAll (aid rid : List Char) :
    ServerState → List (ℕ × ℚ × ℚ) → ServerState
  | st, [] => st
  | st, (t, la, ln) :: rest =>
      ingestAll aid rid
        (postLocation st t
          { runnerId := rid, activityId := aid,
            lat := some la, lng := some ln }).1 rest

/-- Haversine distance between two samples' coordinates. -/
noncomputable def segDist (p q : ℚ × ℚ) : ℝ :=
  calculateDistance (p.1 : ℝ) (p.2 : ℝ) (q.1 : ℝ) (q.2 : ℝ)

/-- Sum of the haversine distances along a chain of coordinates headed by
`p`. -/
noncomputable def chainSum : (ℚ × ℚ) → List (ℚ × ℚ) → ℝ
  | _, [] => 0
  | p, q :: rest => segDist p q + chainSum q rest

/-- Sum of the haversine distances between each consecutive pair of samples
(the first sample contributing zero). -/
noncomputable def sumSegments : List (ℚ × ℚ) → ℝ
  | [] => 0
  | p :: rest => chainSum p rest

/-- Running cumulative distances of successive samples, continuing from
previous coordinates `p` and already-accumulated distance `acc`. -/
noncomputable def cumulativeList : (ℚ × ℚ) → ℝ → List (ℚ × ℚ) → List ℝ
  | _, _, [] => []
  | p, acc, q :: rest =>
      (acc + segDist p q) :: cumulativeList q (acc + segDist p q) rest

/-- The coordinates of a sample list. -/
def coordsOf (samples : List (ℕ × ℚ × ℚ)) : List (ℚ × ℚ) :=
  samples.map fun s => (s.2.1, s.2.2)

theorem segDist_nonneg (p q : ℚ × ℚ) : 0 ≤ segDist p q :=
  calculateDistance_nonneg _ _ _ _

theorem cumulativeList_chain' (l : List (ℚ × ℚ)) :
    ∀ (p : ℚ × ℚ) (acc : ℝ),
      List.Chain' (· ≤ ·) (acc :: cumulativeList p acc l) := by
  induction l with
  | nil => intro p acc; simp [cumulativeList]
  | cons q rest ih =>
      intro p acc
      rw [cumulativeList]
      refine List.chain'_cons.mpr ⟨?_, ih q (acc + segDist p q)⟩
      have := segDist_nonneg p q
      linarith

theorem cumulativeList_getLast (l : List (ℚ × ℚ)) :
    ∀ (p : ℚ × ℚ) (acc : ℝ),
      (acc :: cumulativeList p acc l).getLast? = some (acc + chainSum p l) := by
  induction l with
  | nil => intro p acc; simp [cumulativeList, chainSum]
  | cons q rest ih =>
      intro p acc
      rw [cumulativeList, chainSum, List.getLast?_cons_cons,
        ih q (acc + segDist p q)]
      ring_nf

theorem cumulativeList_nonneg (l : List (ℚ × ℚ)) :
    ∀ (p : ℚ × ℚ) (acc : ℝ), 0 ≤ acc →
      ∀ x ∈ cumulativeList p acc l, 0 ≤ x := by
  induction l with
  | nil => intro p acc _; simp [cumulativeList]
  | cons q rest ih =>
      intro p acc hacc x hx
      rw [cumulativeList] at hx
      have hstep : (0 : ℝ) ≤ acc + segDist p q := by
        have := segDist_nonneg p q
        linarith
      rcases List.mem_cons.mp hx with h | h
      · exact h ▸ hstep
      · exact ih q (acc + segDist p q) hstep x h

/-- Appending a matching ping shifts `findLatestPing` by one fold step. -/
theorem findLatestPing_append (pings : List Ping) (aid rid : List Char)
    (x : Ping) (hx1 : x.activityId = aid) (hx2 : x.runnerId = rid) :
    findLatestPing (pings ++ [x]) aid rid =
      match findLatestPing pings aid rid with
      | none => some x
      | some q => if q.ts ≤ x.ts then some x else some q := by
  unfold findLatestPing
  rw [List.filter_append]
  have hf : List.filter
      (fun p => p.activityId == aid && p.runnerId == rid) [x] = [x] := by
    simp [hx1, hx2]
  rw [hf, List.foldl_append]
  rfl

end ImRunning

namespace ImRunning

/-- Invariant of repeated ingestion: starting from a store whose latest ping
for the pair is `q` carrying cumulative distance `acc`, running the handler
over accepted samples with non-decreasing timestamps appends pings whose
`distance` fields are the running cumulative sums, and leaves the latest ping
carrying `acc` plus the whole chain's haversine length. -/
theorem ingestAll_pings (aid rid : List Char)
    (hr : validateId rid .any = true) (ha : validateId aid .any = true)
    (samples : List (ℕ × ℚ × ℚ)) :
    ∀ (st : ServerState) (q : Ping) (acc : ℝ),
      findLatestPing st.pings aid rid = some q →
      q.distance = some acc →
      (∀ s ∈ samples, s.2.1 ≠ 0 ∧ s.2.2 ≠ 0) →
      List.Chain' (· ≤ ·) (q.ts :: samples.map Prod.fst) →
      (ingestAll aid rid st samples).pings.map Ping.distance =
        st.pings.map Ping.distance ++
          (cumulativeList (q.lat, q.lng) acc (coordsOf samples)).map some ∧
      ∃ q', findLatestPing (ingestAll aid rid st samples).pings aid rid =
          some q' ∧
        q'.distance = some (acc + chainSum (q.lat, q.lng) (coordsOf samples)) := by
  induction samples with
  | nil =>
      intro st q acc hfind hacc _ _
      refine ⟨by simp [ingestAll, coordsOf, cumulativeList], q, ?_, ?_⟩
      · simpa [ingestAll] using hfind
      · simp [coordsOf, chainSum, hacc]
  | cons s rest ih =>
      obtain ⟨t, la, ln⟩ := s
      intro st q acc hfind hacc hcoords hts
      have hla : la ≠ 0 := (hcoords (t, la, ln) (List.mem_cons_self _ _)).1
      have hln : ln ≠ 0 := (hcoords (t, la, ln) (List.mem_cons_self _ _)).2
      have hts' := List.chain'_cons.mp (by simpa using hts)
      have hqt : q.ts ≤ t := hts'.1
      have hpost := postLocation_accepted st t
        { runnerId := rid, activityId := aid, lat := some la, lng := some ln }
        la ln hr ha rfl rfl hla hln
      rw [hfind] at hpost
      set newAcc : ℝ := acc + segDist (q.lat, q.lng) (la, ln) with hnewAcc
      have hcum : (q.distance.getD 0 +
          calculateDistance (q.lat : ℝ) (q.lng : ℝ) (la : ℝ) (ln : ℝ)) = newAcc := by
        rw [hacc, hnewAcc]
        rfl
      set newPing : Ping :=
        { activityId := aid, runnerId := rid, ts := t, lat := la, lng := ln,
          distance := some newAcc } with hnewPing
      have hstep : ingestAll aid rid st ((t, la, ln) :: rest) =
          ingestAll aid rid
            { st with pings := st.pings ++ [newPing] } rest := by
        rw [ingestAll, hpost]
        simp only [hcum, hnewPing]
      have hfind' : findLatestPing (st.pings ++ [newPing]) aid rid =
          some newPing := by
        rw [findLatestPing_append st.pings aid rid newPing rfl rfl, hfind]
        simp [hnewPing, hqt]
      have hih := ih { st with pings := st.pings ++ [newPing] } newPing newAcc
        hfind' rfl (fun s hs => hcoords s (List.mem_cons_of_mem _ hs))
        (by simpa [hnewPing] using hts.tail)
      constructor
      · rw [hstep, hih.1]
        simp [hnewPing, coordsOf, cumulativeList, List.append_assoc]
      · obtain ⟨q', hq1, hq2⟩ := hih.2
        refine ⟨q', by rw [hstep]; exact hq1, ?_⟩
        rw [hq2]
        simp only [hnewPing, coordsOf, List.map_cons, chainSum, hnewAcc]
        ring_nf

end ImRunning

namespace ImRunning

/-- C1: starting from a store holding no pings, running the location handler
over a non-empty sequence of accepted samples with non-decreasing timestamps
stores on the pings exactly the running cumulative haversine sums: the latest
ping carries the total of the consecutive-pair distances (first sample
contributing zero), and the stored cumulative distances form a non-negative,
non-decreasing sequence. -/
theorem cumulative_distance_correct (aid rid : List Char) (st0 : ServerState)
    (hr : validateId rid .any = true) (ha : validateId aid .any = true)
    (h0 : st0.pings = [])
    (samples : List (ℕ × ℚ × ℚ)) (hne : samples ≠ [])
    (hcoords : ∀ s ∈ samples, s.2.1 ≠ 0 ∧ s.2.2 ≠ 0)
    (hts : List.Chain' (· ≤ ·) (samples.map Prod.fst)) :
    ∃ dlist : List ℝ,
      (ingestAll aid rid st0 samples).pings.map Ping.distance =
        dlist.map some ∧
      dlist.getLast? = some (sumSegments (coordsOf samples)) ∧
      List.Chain' (· ≤ ·) dlist ∧
      (∀ x ∈ dlist, 0 ≤ x) ∧
      ∃ q, findLatestPing (ingestAll aid rid st0 samples).pings aid rid =
          some q ∧
        q.distance = some (sumSegments (coordsOf samples)) := by
  match samples, hne with
  | (t0, la0, ln0) :: rest, _ =>
    have hla : la0 ≠ 0 := (hcoords (t0, la0, ln0) (List.mem_cons_self _ _)).1
    have hln : ln0 ≠ 0 := (hcoords (t0, la0, ln0) (List.mem_cons_self _ _)).2
    have hfind0 : findLatestPing st0.pings aid rid = none := by
      rw [h0]; rfl
    have hpost0 := postLocation_accepted st0 t0
      { runnerId := rid, activityId := aid, lat := some la0, lng := some ln0 }
      la0 ln0 hr ha rfl rfl hla hln
    rw [hfind0] at hpost0
    set p0 : Ping :=
      { activityId := aid, runnerId := rid, ts := t0, lat := la0, lng := ln0,
        distance := some 0 } with hp0
    have hstep : ingestAll aid rid st0 ((t0, la0, ln0) :: rest) =
        ingestAll aid rid { st0 with pings := st0.pings ++ [p0] } rest := by
      rw [ingestAll, hpost0]
    have hfind1 : findLatestPing (st0.pings ++ [p0]) aid rid = some p0 := by
      rw [findLatestPing_append st0.pings aid rid p0 rfl rfl, hfind0]
    have hih := ingestAll_pings aid rid hr ha rest
      { st0 with pings := st0.pings ++ [p0] } p0 0 hfind1 rfl
      (fun s hs => hcoords s (List.mem_cons_of_mem _ hs))
      (by simpa [hp0] using hts)
    refine ⟨0 :: cumulativeList (la0, ln0) 0 (coordsOf rest), ?_, ?_, ?_, ?_, ?_⟩
    · rw [hstep, hih.1, h0]
      simp [hp0]
    · rw [cumulativeList_getLast (coordsOf rest) (la0, ln0) 0]
      simp [coordsOf, sumSegments]
    · exact cumulativeList_chain' (coordsOf rest) (la0, ln0) 0
    · intro x hx
      rcases List.mem_cons.mp hx with h | h
      · exact h.ge
      · exact cumulativeList_nonneg (coordsOf rest) (la0, ln0) 0 (le_refl 0) x h
    · obtain ⟨q', hq1, hq2⟩ := hih.2
      refine ⟨q', by rw [hstep]; exact hq1, ?_⟩
      rw [hq2]
      simp [hp0, coordsOf, sumSegments]

/-- Witness for C1 at a concrete run: one runner, two samples. -/
theorem cumulative_distance_correct_witness :
    ∃ dlist : List ℝ,
      (ingestAll aidA ridA
          { users := [], events := [], activities := [], pings := [],
            cheers := [] }
          [(5, 1, 2), (7, 3, 4)]).pings.map Ping.distance =
        dlist.map some ∧
      dlist.getLast? =
        some (sumSegments (coordsOf [(5, 1, 2), (7, 3, 4)])) ∧
      List.Chain' (· ≤ ·) dlist ∧
      (∀ x ∈ dlist, 0 ≤ x) ∧
      ∃ q, findLatestPing
          (ingestAll aidA ridA
            { users := [], events := [], activities := [], pings := [],
              cheers := [] }
            [(5, 1, 2), (7, 3, 4)]).pings aidA ridA = some q ∧
        q.distance = some (sumSegments (coordsOf [(5, 1, 2), (7, 3, 4)])) :=
  cumulative_distance_correct aidA ridA _ (by decide) (by decide) rfl
    [(5, 1, 2), (7, 3, 4)] (by decide)
    (by intro s hs; fin_cases hs <;> constructor <;> norm_num)
    (by simp)

end ImRunning

namespace ImRunning

/-- JavaScript truthiness test applied to an optional string field:
`undefined`/`null` and the empty string are falsy. -/
def jsFalsyStr (o : Option (List Char)) : Bool :=
  match o with
  | none => true
  | some s => s.isEmpty

/-- One character's image under the chained `.replace` calls of
`sanitizeInput` in db/utils.js (the sequential global replacements never
rewrite characters introduced by an earlier replacement, so they act
per input character). -/
def escapeChar (c : Char) : List Char :=
  if c = '&' then "&amp;".toList
  else if c = '<' then "&lt;".toList
  else if c = '>' then "&gt;".toList
  else if c = '"' then "&quot;".toList
  else if c = '\'' then "&#x27;".toList
  else if c = '/' then "&#x2F;".toList
  else [c]

/-- `sanitizeInput` from db/utils.js: escape markup characters, then trim
surrounding whitespace. -/
def sanitizeInput (s : List Char) : List Char :=
  ((((s.map escapeChar).flatten).dropWhile Char.isWhitespace).reverse.dropWhile
    Char.isWhitespace).reverse

/-- The part of `s` after the first occurrence of `pat`, if `pat` occurs. -/
def afterFirst (pat : List Char) : List Char → Option (List Char)
  | [] => if pat.isEmpty then some [] else none
  | c :: rest =>
      if pat.isPrefixOf (c :: rest) then some ((c :: rest).drop pat.length)
      else afterFirst pat rest

/-- Whether `pat` occurs as a contiguous run of `s`. -/
def hasSubstr (pat : List Char) : List Char → Bool
  | [] => pat.isEmpty
  | c :: rest => pat.isPrefixOf (c :: rest) || hasSubstr pat rest

/-- `Event.findOne({ name: /berlin.*marathon/i })`'s predicate: the
lower-cased name contains `berlin` followed (at or after its end) by
`marathon`. -/
def berlinMarathonTest (name : List Char) : Bool :=
  match afterFirst "berlin".toList (name.map Char.toLower) with
  | none => false
  | some suffix => hasSubstr "marathon".toList suffix

/-- Epoch milliseconds of `new Date('2025-09-28')`. -/
def berlinMarathonDate : ℕ := 1759017600000

/-- Request data of `POST .../start` (the unused `latitude`/`longitude` body
fields and the static payload fields of the created records — share settings,
registration, checkpoints — are elided; `startLocation` carries its optional
`lat`/`lng`). -/
structure StartRequest where
  runnerId : List Char
  activityId : List Char
  startLocation : Option (Option ℚ × Option ℚ)
  eventName : Option (List Char)
  eventType : Option (List Char)
  eventDate : Option ℕ

/-- Outcome of the start handler: HTTP 400 on invalid ids, HTTP 500 when the
response building throws (existing activity whose event is missing), or the
activity snapshot (status, startedAt) of the success payload. -/
inductive StartResult where
  | badRequest
  | ok : ActivityStatus → Option ℕ → StartResult
  | serverError
  deriving DecidableEq

/-- Lines 463-481 of server.js: look up the user, provisioning a placeholder
one when absent (`Runner ` + last 4 id characters as display name). -/
def provisionUser (users : List UserRec) (runnerId : List Char) :
    UserRec × List UserRec :=
  match users.find? fun u => u.id == runnerId with
  | some u => (u, users)
  | none =>
      let user : UserRec :=
        { id := runnerId,
          email := runnerId ++ "@example.com".toList,
          displayName := "Runner ".toList ++
            runnerId.drop (runnerId.length - 4) }
      (user, users ++ [user])

/-- Lines 487-580 of server.js: resolve the event for a newly created
activity — a custom event when a truthy `eventName` other than
`Custom Run` is supplied (type defaulting to `custom`, date to now),
otherwise the stored Berlin Marathon event, created on first use.
(Mongoose schema-level validation is not modelled: the store persists the
document the handler constructs.) -/
def resolveEvent (events : List EventRec) (now : ℕ) (freshEventId : List Char)
    (req : StartRequest) : EventRec × List EventRec :=
  if !jsFalsyStr req.eventName &&
      !(req.eventName.getD [] == "Custom Run".toList) then
    let finalEventType : List Char :=
      match req.eventType with
      | some t => if t.isEmpty then "custom".toList else t
      | none => "custom".toList
    let event : EventRec :=
      { id := freshEventId, name := req.eventName.getD [],
        type := finalEventType, date := req.eventDate.getD now }
    (event, events ++ [event])
  else
    match events.find? fun e => berlinMarathonTest e.name with
    | some e => (e, events)
    | none =>
        let event : EventRec :=
          { id := freshEventId, name := "Berlin Marathon 2025".toList,
            type := "marathon".toList, date := berlinMarathonDate }
        (event, events ++ [event])

/-- Lines 616-634 of server.js: persist the optional start location as a ping
without a `distance` field, when `startLocation`, its `lat` and its `lng` are
all truthy. -/
def startPing (pings : List Ping) (now : ℕ)
    (activityId runnerId : List Char)
    (sl : Option (Option ℚ × Option ℚ)) : List Ping :=
  match sl with
  | some l =>
      if !jsFalsy l.1 && !jsFalsy l.2 then
        let location : Ping :=
          { activityId := activityId, runnerId := runnerId,
            ts := now, lat := l.1.getD 0, lng := l.2.getD 0, distance := none }
        pings ++ [location]
      else pings
  | none => pings

/-- Lines 609-612 of server.js: the unconditional mutation
`activity.status = 'active'; activity.startedAt = new Date();
activity.updatedAt = new Date()`. -/
def activateActivity (now : ℕ) (a : ActivityRec) : ActivityRec :=
  { a with status := .active, startedAt := some now, updatedAt := now }

/-- The start handler of server.js (lines 450-689): id validation, user
provisioning, activity creation (in `planned` status) with event resolution
when the activity is absent, then the unconditional
`activity.status = 'active'; activity.startedAt = new Date()` save, the
optional start-location ping, and the response — an HTTP 500 (after the saves)
when an existing activity's event is missing, the snapshot otherwise. -/
def startActivity (st : ServerState) (now : ℕ)
    (freshEventId _freshShareToken : List Char) (req : StartRequest) :
    ServerState × StartResult :=
  if !validateId req.runnerId .any || !validateId req.activityId .any then
    (st, .badRequest)
  else
    let pu := provisionUser st.users req.runnerId
    match st.activities.find? fun a => a.id == req.activityId with
    | none =>
        let re := resolveEvent st.events now freshEventId req
        let createdActivity : ActivityRec :=
          { id := req.activityId, runnerId := pu.1.id, eventId := re.1.id,
            status := .planned, startedAt := none,
            createdAt := now, updatedAt := now }
        let activities' := updateFirst (fun a => a.id == req.activityId)
          (activateActivity now) (st.activities ++ [createdActivity])
        let st' : ServerState :=
          { st with
              users := pu.2,
              events := re.2,
              activities := activities',
              pings := startPing st.pings now req.activityId pu.1.id
                req.startLocation }
        (st', .ok .active (some now))
    | some activity =>
        let activities' := updateFirst (fun a => a.id == req.activityId)
          (activateActivity now) st.activities
        let st' : ServerState :=
          { st with
              users := pu.2,
              activities := activities',
              pings := startPing st.pings now req.activityId pu.1.id
                req.startLocation }
        (st',
          match st.events.find? fun e => e.id == activity.eventId with
          | some _ => .ok .active (some now)
          | none => .serverError)

/-- Outcome of the announce handler. -/
inductive AnnounceResult where
  | badRequest | notFound | ok
  deriving DecidableEq

/-- The `{ deliveredAt: new Date() }` update document of the announce
handler. -/
def deliverCheer (now : ℕ) (c : CheerRec) : CheerRec :=
  { c with deliveredAt := some now }

/-- The announce handler of server.js (lines 976-1009):
`Cheer.findOneAndUpdate({_id, activityId}, {deliveredAt: new Date()})` —
the first matching message's `deliveredAt` is set to now unconditionally;
404 when no message matches. -/
def announceMessage (st : ServerState) (now : ℕ)
    (runnerId activityId messageId : List Char) :
    ServerState × AnnounceResult :=
  if !validateId runnerId .any || !validateId activityId .any then
    (st, .badRequest)
  else
    match st.cheers.find? fun c =>
        c.id == messageId && c.activityId == activityId with
    | none => (st, .notFound)
    | some _ =>
        let cheers' := updateFirst
          (fun c => c.id == messageId && c.activityId == activityId)
          (deliverCheer now) st.cheers
        ({ st with cheers := cheers' }, .ok)

/-- Outcome of the send-message handler. -/
inductive SendResult where
  | badRequest : List Char → SendResult
  | ok : SendResult
  deriving DecidableEq

def senderMessageRequiredMsg : List Char :=
  "Sender name and message are required".toList

/-- The send-message handler of server.js (lines 879-935): id validation,
truthiness check on `sender`/`message`, then a new cheer with sanitized
fields and no `deliveredAt`. -/
def sendMessage (st : ServerState) (now : ℕ) (freshMessageId : List Char)
    (runnerId activityId : List Char) (sender message : Option (List Char)) :
    ServerState × SendResult :=
  if !validateId runnerId .any || !validateId activityId .any then
    (st, .badRequest invalidIdMsg)
  else if jsFalsyStr sender || jsFalsyStr message then
    (st, .badRequest senderMessageRequiredMsg)
  else
    let newCheer : CheerRec :=
      { id := freshMessageId, activityId := activityId,
        fromName := sanitizeInput (sender.getD []),
        message := sanitizeInput (message.getD []),
        createdAt := now, deliveredAt := none }
    ({ st with cheers := st.cheers ++ [newCheer] }, .ok)

/-- Outcome of the unannounced-messages handler. -/
inductive UnannResult where
  | badRequest
  | ok : List CheerRec → UnannResult
  deriving DecidableEq

/-- The unannounced-messages handler of server.js (lines 1012-1036):
`Cheer.find({activityId, deliveredAt: {$exists: false}})
.sort({createdAt: 1}).limit(10)`. -/
def unannouncedMessages (st : ServerState) (runnerId activityId : List Char) :
    UnannResult :=
  if !validateId runnerId .any || !validateId activityId .any then
    .badRequest
  else
    .ok (((st.cheers.filter fun c =>
        c.activityId == activityId && c.deliveredAt == none).insertionSort
          fun a b => a.createdAt ≤ b.createdAt).take 10)

/-- The `join-tracking` socket handler (server.js lines 187-193):
`socket.join` adds the connection to the room `runnerId-activityId` after id
validation, leaving every other membership in place. -/
def joinTracking (rooms : List (List Char × List Char))
    (socketId runnerId activityId : List Char) :
    List (List Char × List Char) :=
  if validateId runnerId .any && validateId activityId .any then
    let room := runnerId ++ '-' :: activityId
    if (socketId, room) ∈ rooms then rooms else rooms ++ [(socketId, room)]
  else rooms

/-- The `leave-tracking` socket handler (server.js lines 196-200):
`socket.leave` removes exactly the connection's membership of the named
room (no id validation in this handler). -/
def leaveTracking (rooms : List (List Char × List Char))
    (socketId runnerId activityId : List Char) :
    List (List Char × List Char) :=
  let room := runnerId ++ '-' :: activityId
  rooms.filter fun m => !(m == (socketId, room))

end ImRunning

namespace ImRunning

/-- C5 counterexample: the legacy bare 8-character alphanumeric format is
made of alphanumerics only yet rejected by `validateId` (also under the
`'any'` kind the handlers use), while an activity-format id passes the
`'any'` check that the handlers apply to runner ids, so no per-kind pattern
is enforced. -/
theorem legacy_id_rejected :
    "2758f8dd".toList.all isAlnumChar = true ∧
      validateId "2758f8dd".toList .any = false ∧
      validateId "act_a632ae7b".toList .any = true := by decide

/-- C5 amended: `validateId` accepts only the four prefixed formats — an id
consisting solely of alphanumeric characters is always rejected — and
acceptance under any per-kind pattern implies acceptance under the `'any'`
union, which is the check every server.js handler actually performs. -/
theorem validateId_prefixed_only (id : List Char) :
    (id.all isAlnumChar = true → validateId id .any = false) ∧
      (∀ ty, validateId id ty = true → validateId id .any = true) := by
  constructor
  · intro hall
    cases hv : validateId id .any with
    | false => rfl
    | true =>
        exfalso
        rcases (by simpa [validateId, Bool.or_eq_true] using hv :
            ((matchesPattern "usr_".toList 8 id = true ∨
              matchesPattern "evt_".toList 8 id = true) ∨
              matchesPattern "act_".toList 8 id = true) ∨
              matchesPattern "sh_".toList 16 id = true) with ((h | h) | h) | h
        · exact matchesPattern_no_alnum _ _ _ (by decide) h hall
        · exact matchesPattern_no_alnum _ _ _ (by decide) h hall
        · exact matchesPattern_no_alnum _ _ _ (by decide) h hall
        · exact matchesPattern_no_alnum _ _ _ (by decide) h hall
  · intro ty hty
    cases ty <;> simp_all [validateId]

/-- Witness for the amended C5 statement at concrete ids. -/
theorem validateId_prefixed_only_witness :
    validateId "2758f8dd".toList .any = false ∧
      validateId "usr_2758f8dd".toList .any = true :=
  ⟨(validateId_prefixed_only _).1 (by decide),
   (validateId_prefixed_only _).2 .user (by decide)⟩

end ImRunning

namespace ImRunning

def user2 : UserRec :=
  { id := ridA, email := "r@example.com".toList, displayName := "R".toList }

def event2 : EventRec :=
  { id := eidA, name := "Berlin Marathon 2025".toList,
    type := "marathon".toList, date := berlinMarathonDate }

/-- An activity already in `Active` status, started at time 100. -/
def activity2 : ActivityRec :=
  { id := aidA, runnerId := ridA, eventId := eidA, status := .active,
    startedAt := some 100, createdAt := 50, updatedAt := 100 }

def st2 : ServerState :=
  { users := [user2], events := [event2], activities := [activity2],
    pings := [], cheers := [] }

def req2 : StartRequest :=
  { runnerId := ridA, activityId := aidA, startLocation := none,
    eventName := none, eventType := none, eventDate := none }

/-- C2 (code bug): a second `start()` call at time 200 on the activity that
is already `Active` since time 100 is not a no-op — the handler
unconditionally resets `startedAt` to 200 — although it indeed creates no
second user, event or activity record. -/
theorem start_not_idempotent :
    ((startActivity st2 200 "evt_ffffffff".toList
        "sh_ffffffffffffffff".toList req2).1.activities.find?
      fun a => a.id == aidA) =
      some { activity2 with startedAt := some 200, updatedAt := 200 } ∧
    some (200 : ℕ) ≠ some (100 : ℕ) ∧
    (startActivity st2 200 "evt_ffffffff".toList
        "sh_ffffffffffffffff".toList req2).1.users.length = 1 ∧
    (startActivity st2 200 "evt_ffffffff".toList
        "sh_ffffffffffffffff".toList req2).1.events.length = 1 ∧
    (startActivity st2 200 "evt_ffffffff".toList
        "sh_ffffffffffffffff".toList req2).1.activities.length = 1 := by
  decide

/-- A finished activity, for the C4 counterexample. -/
def activity4 : ActivityRec :=
  { id := aidA, runnerId := ridA, eventId := eidA, status := .finished,
    startedAt := some 100, createdAt := 50, updatedAt := 150 }

def st4 : ServerState :=
  { users := [user2], events := [event2], activities := [activity4],
    pings := [], cheers := [] }

/-- C4 counterexample: a `start()` call moves a `Finished` activity back to
`Active`. -/
theorem finished_moved_back_to_active :
    (st4.activities.find? fun a => a.id == aidA).map ActivityRec.status =
      some .finished ∧
    (((startActivity st4 200 "evt_ffffffff".toList
          "sh_ffffffffffffffff".toList req2).1.activities.find?
        fun a => a.id == aidA).map ActivityRec.status) = some .active := by
  decide

end ImRunning

namespace ImRunning

/-- `find?` after `updateFirst` with a predicate the update preserves. -/
theorem find?_updateFirst {α : Type} (p : α → Bool) (f : α → α)
    (hf : ∀ x, p (f x) = p x) (l : List α) :
    (updateFirst p f l).find? p = (l.find? p).map f := by
  induction l with
  | nil => rfl
  | cons x xs ih =>
      rw [updateFirst]
      by_cases hx : p x = true
      · rw [if_pos hx, List.find?_cons_of_pos _ ((hf x).trans hx),
          List.find?_cons_of_pos _ hx, Option.map_some']
      · rw [if_neg hx, List.find?_cons_of_neg _ hx,
          List.find?_cons_of_neg _ hx, ih]

/-- C4 amended: `start()` on an existing activity overwrites its status with
`Active` whatever the previous status was (so a `Finished` or `Cancelled`
activity is moved back to `Active`), while the location, announce and
send-message handlers never write any activity record. -/
theorem status_written_only_by_start (st : ServerState) (now : ℕ)
    (freshEventId freshShareToken : List Char) (req : StartRequest)
    (a : ActivityRec)
    (hr : validateId req.runnerId .any = true)
    (hv : validateId req.activityId .any = true)
    (ha : (st.activities.find? fun x => x.id == req.activityId) = some a)
    (stL : ServerState) (nowL : ℕ) (lreq : LocationRequest)
    (stA : ServerState) (nowA : ℕ) (ridA' aidA' midA' : List Char)
    (stS : ServerState) (nowS : ℕ) (midS ridS aidS : List Char)
    (sender msg : Option (List Char)) :
    ((startActivity st now freshEventId freshShareToken req).1.activities.find?
        fun x => x.id == req.activityId) =
      some { a with
        status := .active, startedAt := some now, updatedAt := now } ∧
    (postLocation stL nowL lreq).1.activities = stL.activities ∧
    (announceMessage stA nowA ridA' aidA' midA').1.activities =
      stA.activities ∧
    (sendMessage stS nowS midS ridS aidS sender msg).1.activities =
      stS.activities := by
  refine ⟨?_, ?_, ?_, ?_⟩
  · have hfind := find?_updateFirst (fun x => x.id == req.activityId)
      (activateActivity now) (fun x => rfl) st.activities
    unfold startActivity
    simp only [hr, hv, Bool.not_true, Bool.or_self, Bool.false_or,
      Bool.or_false, ha, Bool.false_eq_true, if_false]
    rw [hfind, ha]
    rfl
  · unfold postLocation
    split
    · rfl
    · split
      · rfl
      · rfl
  · unfold announceMessage
    split
    · rfl
    · split <;> rfl
  · unfold sendMessage
    split
    · rfl
    · split <;> rfl

/-- Witness for the amended C4 statement at concrete inputs. -/
theorem status_written_only_by_start_witness :
    ((startActivity st4 200 "evt_ffffffff".toList
        "sh_ffffffffffffffff".toList req2).1.activities.find?
        fun x => x.id == req2.activityId) =
      some { activity4 with
        status := .active, startedAt := some 200, updatedAt := 200 } ∧
    (postLocation st4 0
        { runnerId := ridA, activityId := aidA,
          lat := none, lng := none }).1.activities = st4.activities ∧
    (announceMessage st4 0 ridA aidA "m".toList).1.activities =
      st4.activities ∧
    (sendMessage st4 0 "m".toList ridA aidA none none).1.activities =
      st4.activities :=
  status_written_only_by_start st4 200 "evt_ffffffff".toList
    "sh_ffffffffffffffff".toList req2 activity4 (by decide) (by decide)
    (by decide) st4 0 _ st4 0 _ _ _ st4 0 _ _ _ none none

end ImRunning

namespace ImRunning

/-- A cheer message already delivered at time 100. -/
def cheer3 : CheerRec :=
  { id := "m1".toList, activityId := aidA, fromName := "Ann".toList,
    message := "go".toList, createdAt := 10, deliveredAt := some 100 }

def st3 : ServerState :=
  { users := [], events := [], activities := [], pings := [],
    cheers := [cheer3] }

/-- C3 counterexample: re-announcing the message delivered at time 100 at
time 200 succeeds but overwrites `deliveredAt` with 200 instead of leaving
the original timestamp. -/
theorem announce_overwrites_counterexample :
    (announceMessage st3 200 ridA aidA "m1".toList).2 = .ok ∧
    ((announceMessage st3 200 ridA aidA "m1".toList).1.cheers.find?
        fun c => c.id == "m1".toList) =
      some { cheer3 with deliveredAt := some 200 } ∧
    some (200 : ℕ) ≠ some (100 : ℕ) := by decide

/-- C3 amended: `announce()` on an existing message always succeeds and sets
`deliveredAt` to the current time unconditionally — re-announcing an
already-delivered message overwrites the stored timestamp with the newer
one. -/
theorem announce_sets_deliveredAt (st : ServerState) (now : ℕ)
    (rid aid mid : List Char) (c : CheerRec)
    (hr : validateId rid .any = true) (ha : validateId aid .any = true)
    (hc : (st.cheers.find? fun x => x.id == mid && x.activityId == aid) =
      some c) :
    (announceMessage st now rid aid mid).2 = .ok ∧
    ((announceMessage st now rid aid mid).1.cheers.find?
        fun x => x.id == mid && x.activityId == aid) =
      some { c with deliveredAt := some now } := by
  have hfind := find?_updateFirst
    (fun x => x.id == mid && x.activityId == aid)
    (deliverCheer now) (fun x => rfl) st.cheers
  unfold announceMessage
  simp only [hr, ha, Bool.not_true, Bool.or_self, Bool.false_or,
    Bool.or_false, hc, Bool.false_eq_true, if_false]
  refine ⟨by trivial, ?_⟩
  rw [hfind, hc]
  rfl

/-- Witness for the amended C3 statement at a concrete store. -/
theorem announce_sets_deliveredAt_witness :
    (announceMessage st3 300 ridA aidA "m1".toList).2 = .ok ∧
    ((announceMessage st3 300 ridA aidA "m1".toList).1.cheers.find?
        fun x => x.id == "m1".toList && x.activityId == aidA) =
      some { cheer3 with deliveredAt := some 300 } :=
  announce_sets_deliveredAt st3 300 ridA aidA "m1".toList cheer3
    (by decide) (by decide) (by decide)

end ImRunning

namespace ImRunning

instance : IsTotal CheerRec (fun a b => a.createdAt ≤ b.createdAt) :=
  ⟨fun _ _ => Nat.le_total _ _⟩

instance : IsTrans CheerRec (fun a b => a.createdAt ≤ b.createdAt) :=
  ⟨fun _ _ _ h1 h2 => Nat.le_trans h1 h2⟩


/-- C7: with valid ids, the unannounced-messages handler returns at most 10
messages, all with `deliveredAt` unset and belonging to the requested
activity, ordered oldest-first by `createdAt`. -/
theorem unannounced_spec (st : ServerState) (rid aid : List Char)
    (hr : validateId rid .any = true) (ha : validateId aid .any = true) :
    ∃ l, unannouncedMessages st rid aid = .ok l ∧
      l.length ≤ 10 ∧
      (∀ c ∈ l, c.deliveredAt = none ∧ c.activityId = aid) ∧
      List.Sorted (fun a b => a.createdAt ≤ b.createdAt) l := by
  refine ⟨((st.cheers.filter fun c =>
      c.activityId == aid && c.deliveredAt == none).insertionSort
        fun a b => a.createdAt ≤ b.createdAt).take 10, ?_, ?_, ?_, ?_⟩
  · unfold unannouncedMessages
    simp [hr, ha]
  · exact List.length_take_le 10 _
  · intro c hc
    have hc1 := List.mem_of_mem_take hc
    have hc2 := (List.mem_insertionSort _).mp hc1
    have hcond : c.activityId = aid ∧ c.deliveredAt = none := by
      simpa using (List.mem_filter.mp hc2).2
    exact ⟨hcond.2, hcond.1⟩
  · exact List.Pairwise.sublist (List.take_sublist _ _)
      (List.sorted_insertionSort _ _)

/-- Witness for C7 at a concrete store. -/
theorem unannounced_spec_witness :
    ∃ l, unannouncedMessages st3 ridA aidA = .ok l ∧
      l.length ≤ 10 ∧
      (∀ c ∈ l, c.deliveredAt = none ∧ c.activityId = aidA) ∧
      List.Sorted (fun a b => a.createdAt ≤ b.createdAt) l :=
  unannounced_spec st3 ridA aidA (by decide) (by decide)

end ImRunning

namespace ImRunning

/-- The empty store. -/
def st0e : ServerState :=
  { users := [], events := [], activities := [], pings := [], cheers := [] }

/-- Witness for C8 at a concrete request missing its longitude. -/
theorem ingest_missing_coordinate_rejected_witness :
    (postLocation st0e 0
        { runnerId := ridA, activityId := aidA,
          lat := some 1, lng := none }).1 = st0e ∧
      ∃ msg, (postLocation st0e 0
        { runnerId := ridA, activityId := aidA,
          lat := some 1, lng := none }).2 = .badRequest msg :=
  ingest_missing_coordinate_rejected st0e 0 _ (Or.inr rfl)

/-- Witness for C10 at a concrete request carrying latitude `0`. -/
theorem ingest_zero_coordinate_rejected_witness :
    postLocation st0e 0
        { runnerId := ridA, activityId := aidA,
          lat := some 0, lng := some 1 } =
      (st0e, .badRequest latLngRequiredMsg) ∧
      postLocation st0e 0
          { runnerId := ridA, activityId := aidA,
            lat := some 0, lng := some 1 } =
        postLocation st0e 0
          { runnerId := ridA, activityId := aidA,
            lat := none, lng := none } :=
  ingest_zero_coordinate_rejected st0e 0 _ (Or.inl rfl) (by decide) (by decide)

def sidC : List Char := "conn1".toList

def aidB : List Char := "act_bbbbbbbb".toList

/-- C9 counterexample: after joining the topics of two different activities,
the same connection holds two memberships at once — joining the second topic
did not remove the first. -/
theorem connection_in_two_topics :
    ¬ (((joinTracking (joinTracking [] sidC ridA aidA) sidC ridA aidB).filter
        fun m => m.1 == sidC).length ≤ 1) ∧
    (sidC, ridA ++ '-' :: aidA) ∈
      joinTracking (joinTracking [] sidC ridA aidA) sidC ridA aidB ∧
    (sidC, ridA ++ '-' :: aidB) ∈
      joinTracking (joinTracking [] sidC ridA aidA) sidC ridA aidB := by
  decide

/-- C9 amended: `join-tracking` only ever adds a membership — every existing
membership, in particular one for another activity of the same connection,
survives — and a membership disappears only through `leave-tracking` naming
exactly that room. -/
theorem join_keeps_previous_topics (rooms : List (List Char × List Char))
    (sid rid aid : List Char) (m : List Char × List Char) :
    (m ∈ rooms → m ∈ joinTracking rooms sid rid aid) ∧
      (∀ m', m' ∈ leaveTracking rooms sid rid aid ↔
        m' ∈ rooms ∧ m' ≠ (sid, rid ++ '-' :: aid)) := by
  constructor
  · intro hm
    unfold joinTracking
    split
    · simp only []
      split
      · exact hm
      · exact List.mem_append_left _ hm
    · exact hm
  · intro m'
    unfold leaveTracking
    simp [List.mem_filter]

/-- Witness for the amended C9 statement at concrete rooms. -/
theorem join_keeps_previous_topics_witness :
    (sidC, ridA ++ '-' :: aidA) ∈
      joinTracking [(sidC, ridA ++ '-' :: aidA)] sidC ridA aidB ∧
      ((sidC, ridA ++ '-' :: aidA) ∈
          leaveTracking [(sidC, ridA ++ '-' :: aidA)] sidC ridA aidB ↔
        (sidC, ridA ++ '-' :: aidA) ∈ [(sidC, ridA ++ '-' :: aidA)] ∧
          (sidC, ridA ++ '-' :: aidA) ≠ (sidC, ridA ++ '-' :: aidB)) :=
  ⟨(join_keeps_previous_topics [(sidC, ridA ++ '-' :: aidA)] sidC ridA aidB
      (sidC, ridA ++ '-' :: aidA)).1 (by decide),
   (join_keeps_previous_topics [(sidC, ridA ++ '-' :: aidA)] sidC ridA aidB
      (sidC, ridA ++ '-' :: aidA)).2 _⟩

end ImRunning
